import Mathlib

/-!
Verification of the JSON-RPC client helper core (`src/helpers.rs` of
rust-web3): request construction, batch/output interpretation, the typed
decode future, serialization, and byte-slice parsing.

The wire model (`rpc::Value`, `rpc::Call`, `rpc::Output`, ...) and the
client error taxonomy (`error::Error`) are declared outside this slice of
the repository; they are modelled here from the spec's data-model and
wire-format sections.  The functions of `helpers.rs` are translated
directly from the source.
-/

namespace Web3

/-- Modelled from the spec: the generic, type-erased JSON-like wire value
(`rpc::Value`, i.e. a JSON value).  Numbers are modelled as integers; the
claims under verification involve only integral numbers. -/
inductive Value : Type where
  | null : Value
  | bool (b : Bool) : Value
  | num (n : Int) : Value
  | str (s : String) : Value
  | arr (xs : List Value) : Value
  | obj (fields : List (String × Value)) : Value
deriving Repr

/-- Modelled from the spec: the protocol version tag, fixed to "2.0". -/
inductive Version : Type where
  | V2 : Version
deriving Repr, DecidableEq

/-- Modelled from the spec: a request id (`rpc::Id`) — an unsigned integer
(string ids exist on the wire but are not produced by this core). -/
inductive Id : Type where
  | Num (n : Nat) : Id
  | Str (s : String) : Id
deriving Repr

/-- Modelled from the spec: request parameters (`rpc::Params`) — an ordered
sequence of wire values. -/
inductive Params : Type where
  | Array (xs : List Value) : Params
deriving Repr

/-- Modelled from the spec: a single method call — protocol version tag,
method name, ordered parameters, id (`rpc::MethodCall`). -/
structure MethodCall : Type where
  jsonrpc : Option Version
  method : String
  params : Params
  id : Id
deriving Repr

/-- Modelled from the spec: an outbound call (`rpc::Call`): tagged union of
a single method call and a batch of method calls. -/
inductive Call : Type where
  | methodCall (mc : MethodCall) : Call
  | batch (mcs : List MethodCall) : Call
deriving Repr

/-- Modelled from the spec: the structured RPC error value
\x7bcode, message, optional data\x7d. -/
structure RpcError : Type where
  code : Int
  message : String
  data : Option Value
deriving Repr

/-- Modelled from the spec: a success output — the result wire value plus
the id it answers (`rpc::Success`). -/
structure Success : Type where
  result : Value
  id : Id
deriving Repr

/-- Modelled from the spec: a failure output — the RPC error value plus the
id it answers (`rpc::Failure`). -/
structure Failure : Type where
  error : RpcError
  id : Id
deriving Repr

/-- Modelled from the spec: a per-request outcome inside a response
(`rpc::Output`): success or failure. -/
inductive Output : Type where
  | Success (s : Success) : Output
  | Failure (f : Failure) : Output
deriving Repr

/-- Modelled from the spec: a response (`rpc::Response`): a single output
or a batch of outputs. -/
inductive Response : Type where
  | Single (o : Output) : Response
  | Batch (os : List Output) : Response
deriving Repr

/-- Modelled from the spec: a one-way notification (method + params, no
id) (`rpc::Notification`). -/
structure Notification : Type where
  jsonrpc : Option Version
  method : String
  params : Params
deriving Repr

/-- Modelled from the spec: the client error taxonomy (`error::Error`):
transport failure, invalid response (with diagnostic text), RPC error
(wrapping the RPC error value), decode failure, unreachable. -/
inductive Error : Type where
  | Transport (msg : String) : Error
  | InvalidResponse (msg : String) : Error
  | Rpc (e : RpcError) : Error
  | Decoder (msg : String) : Error
  | Unreachable : Error
deriving Repr

/-- `error::Result<T> = Result<T, error::Error>`. -/
abbrev RpcResult (α : Type) : Type := Except Error α

/-- Whether an output is the success variant. -/
def Output.isSuccess : Output → Bool
  | Output.Success _ => true
  | Output.Failure _ => false

/-- Whether a result is the `Ok` variant. -/
def resultIsOk : RpcResult Value → Bool
  | Except.ok _ => true
  | Except.error _ => false

/-- `build_request` from `helpers.rs`: builds a JSON-RPC request — a
method-call `Call` with version tag fixed to V2, the given method, the
given params wrapped as an array, and the given numeric id. -/
def build_request (id : Nat) (method : String) (params : List Value) : Call :=
  Call.methodCall
    { jsonrpc := some Version.V2
      method := method
      params := Params.Array params
      id := Id.Num id }

/-- `to_result_from_output` from `helpers.rs`: a success output yields its
result value, a failure output yields the RPC error wrapped in the client
error taxonomy. -/
def to_result_from_output (output : Output) : RpcResult Value :=
  match output with
  | Output.Success success => Except.ok success.result
  | Output.Failure failure => Except.error (Error.Rpc failure.error)

/-- `to_results_from_outputs` from `helpers.rs`: interprets every output of
a batch independently, wrapping the whole list in `Ok`. -/
def to_results_from_outputs (outputs : List Output) :
    RpcResult (List (RpcResult Value)) :=
  Except.ok (outputs.map to_result_from_output)

/-! ### Claims C1, C2, C3, C10 -/

/-- C1: `build_request(id, method, params)` always returns a method-call
variant of `Call` whose version tag is fixed to "2.0", whose method is the
given name, whose params is the given sequence wrapped as an array, and
whose id is the given non-negative integer; construction is total (never
fails, no side effects). -/
theorem build_request_correct (id : Nat) (method : String) (params : List Value) :
    ∃ mc : MethodCall,
      build_request id method params = Call.methodCall mc ∧
      mc.jsonrpc = some Version.V2 ∧
      mc.method = method ∧
      mc.params = Params.Array params ∧
      mc.id = Id.Num id := by
  exact ⟨_, rfl, rfl, rfl, rfl, rfl⟩

/-- C2: for any input sequence of outputs, `to_results_from_outputs`
returns (inside `Ok`) exactly as many results as inputs, in the same
order, each element being the single-output interpretation of the
corresponding input — in particular each element's success/failure outcome
matches its input positionally and no short-circuit on failure occurs. -/
theorem to_results_from_outputs_pointwise (outputs : List Output) :
    ∃ rs : List (RpcResult Value),
      to_results_from_outputs outputs = Except.ok rs ∧
      rs.length = outputs.length ∧
      (∀ i : Nat, rs[i]? = (outputs[i]?).map to_result_from_output) ∧
      (∀ i : Nat, rs[i]?.map resultIsOk = (outputs[i]?).map Output.isSuccess) := by
  refine ⟨outputs.map to_result_from_output, rfl, by simp, ?_, ?_⟩
  · intro i
    simp [List.getElem?_map]
  · intro i
    simp only [List.getElem?_map, Option.map_map]
    cases h : outputs[i]? with
    | none => rfl
    | some o =>
      cases o <;> rfl

/-- C3: `to_result_from_output` yields `Ok` of the inner value on a
success output, and on a failure output yields an error wrapping the RPC
error value verbatim (code, message and optional data preserved); in
particular a failure with code -32601 / "Method not found" yields exactly
that error. -/
theorem to_result_from_output_cases :
    (∀ s : Success, to_result_from_output (Output.Success s) = Except.ok s.result) ∧
    (∀ f : Failure, to_result_from_output (Output.Failure f) = Except.error (Error.Rpc f.error)) ∧
    to_result_from_output
        (Output.Failure ⟨⟨-32601, "Method not found", none⟩, Id.Num 1⟩) =
      Except.error (Error.Rpc ⟨-32601, "Method not found", none⟩) :=
  ⟨fun _ => rfl, fun _ => rfl, rfl⟩

/-! ### The typed decode future (`CallFuture`) -/

/-- The readiness outcome of a single poll of an asynchronous operation
(`futures::task::Poll`). -/
inductive Poll (α : Type) : Type where
  | pending : Poll α
  | ready (a : α) : Poll α
deriving Repr

/-- The decode step `CallFuture::poll` applies to a raw wire value:
`serde_json::from_value(x).map_err(Into::into)` — the typed
deserialization, its failure converted into the client `Decoder` error. -/
def decodeStep {α : Type} (from_value : Value → Except String α) (v : Value) :
    RpcResult α :=
  match from_value v with
  | Except.ok a => Except.ok a
  | Except.error e => Except.error (Error.Decoder e)

/-- `Result::and_then` as used in `CallFuture::poll`: errors pass through
untouched, values go through the continuation. -/
def resultAndThen {α : Type} (x : RpcResult Value) (f : Value → RpcResult α) :
    RpcResult α :=
  match x with
  | Except.ok v => f v
  | Except.error e => Except.error e

/-- One poll of `CallFuture<T, F>` from `helpers.rs`, as a function of the
outcome the wrapped inner future produced on this same poll: `ready!`
propagates a pending inner poll, and a ready inner result is fed through
`and_then` with the decode step. -/
def callFuturePoll {α : Type} (from_value : Value → Except String α)
    (inner : Poll (RpcResult Value)) : Poll (RpcResult α) :=
  match inner with
  | Poll.pending => Poll.pending
  | Poll.ready x => Poll.ready (resultAndThen x (decodeStep from_value))

/-- The decode invocations a single poll of `CallFuture` triggers: the
decode step runs exactly when the inner future completes with a raw wire
value (never on pending, never on a transport error). -/
def decodeEvents : Poll (RpcResult Value) → List Value
  | Poll.ready (Except.ok v) => [v]
  | _ => []

/-- A legal polling run of a `CallFuture`: the inner future's successive
poll outcomes are given as a trace, the caller re-polls while the adapter
reports pending and stops at the first ready result (per the single-use
future contract of the spec).  Returns the resolution (if reached) and
the list of decode invocations, in order. -/
def runCallFuture {α : Type} (from_value : Value → Except String α) :
    List (Poll (RpcResult Value)) → Option (RpcResult α) × List Value
  | [] => (none, [])
  | p :: rest =>
    match callFuturePoll from_value p with
    | Poll.pending =>
      ((runCallFuture from_value rest).1,
        decodeEvents p ++ (runCallFuture from_value rest).2)
    | Poll.ready out => (some out, decodeEvents p)

/-- C10: the outer result of `to_results_from_outputs` is always the `Ok`
variant, whatever the input — even a vector of only failure outputs; only
the inner per-element results carry errors. -/
theorem to_results_from_outputs_total (outputs : List Output) :
    ∃ rs : List (RpcResult Value), to_results_from_outputs outputs = Except.ok rs :=
  ⟨outputs.map to_result_from_output, rfl⟩

/-! ### Value codec: supported type universe, serialization, rendering -/

/-- Modelled from the spec: a closed universe of supported serializable
types — booleans, integral numbers, strings, raw wire values, and lists
thereof ("the supported types are structurally guaranteed encodable"). -/
inductive Ty : Type where
  | bool : Ty
  | num : Ty
  | str : Ty
  | json : Ty
  | list (t : Ty) : Ty

/-- The Lean type a supported type denotes. -/
def Ty.interp : Ty → Type
  | Ty.bool => Bool
  | Ty.num => Int
  | Ty.str => String
  | Ty.json => Value
  | Ty.list t => List t.interp

/-- Modelled from the spec: the encoder half of the Value Codec
(`serde_json::to_value` restricted to the supported universe) — each
supported value maps to its wire representation. -/
def ser : (t : Ty) → t.interp → Value
  | Ty.bool, b => Value.bool b
  | Ty.num, i => Value.num i
  | Ty.str, s => Value.str s
  | Ty.json, v => v
  | Ty.list t, xs => Value.arr (xs.map (ser t))

/-- Element-wise decoding of an array, stopping at the first failure (as
`serde` does when deserializing a sequence). -/
def decodeList {α : Type} (f : Value → Except String α) :
    List Value → Except String (List α)
  | [] => Except.ok []
  | v :: vs =>
    match f v with
    | Except.error e => Except.error e
    | Except.ok a =>
      match decodeList f vs with
      | Except.error e => Except.error e
      | Except.ok rest => Except.ok (a :: rest)

/-- Modelled from the spec: the decoder half of the Value Codec
(`serde_json::from_value` at a supported target type) — fails with a
diagnostic when the wire value's shape does not match the target type. -/
def de : (t : Ty) → Value → Except String t.interp
  | Ty.bool, Value.bool b => Except.ok b
  | Ty.bool, _ => Except.error "invalid type: expected a boolean"
  | Ty.num, Value.num i => Except.ok i
  | Ty.num, _ => Except.error "invalid type: expected a number"
  | Ty.str, Value.str s => Except.ok s
  | Ty.str, _ => Except.error "invalid type: expected a string"
  | Ty.json, v => Except.ok v
  | Ty.list t, Value.arr xs => decodeList (de t) xs
  | Ty.list _, _ => Except.error "invalid type: expected an array"

/-- The outcome of an operation that either produces a value or aborts the
process (`expect` panics): there is no error variant at all, so no error
can be returned to the caller. -/
inductive SerOutcome (α : Type) : Type where
  | value (a : α) : SerOutcome α
  | aborted (msg : String) : SerOutcome α
deriving Repr, DecidableEq

/-- `Result::expect(msg)` as used in `serialize` and `to_string`: a value
passes through, an encoder failure aborts with the panic message — it is
never propagated as a returned error. -/
def expectValue {α : Type} (msg : String) : Except String α → SerOutcome α
  | Except.ok a => SerOutcome.value a
  | Except.error _ => SerOutcome.aborted msg

/-- Modelled from the spec: the fallible surface of the underlying encoder
(`serde_json::to_value`); on the supported universe it always succeeds. -/
def to_value (t : Ty) (v : t.interp) : Except String Value :=
  Except.ok (ser t v)

/-- `serialize` from `helpers.rs`: encode, and abort (rather than return
an error) should the encoder ever fail. -/
def serialize (t : Ty) (v : t.interp) : SerOutcome Value :=
  expectValue "Types never fail to serialize." (to_value t v)

/-- One character of compact JSON string escaping, as `serde_json`
renders string contents. -/
def escapeChar (c : Char) : String :=
  if c = Char.ofNat 34 then "\\\""
  else if c = Char.ofNat 92 then "\\\\"
  else if c = Char.ofNat 10 then "\\n"
  else if c = Char.ofNat 9 then "\\t"
  else if c = Char.ofNat 13 then "\\r"
  else String.singleton c

/-- Escape a whole string for JSON output. -/
def escapeString (s : String) : String :=
  String.join (s.data.map escapeChar)

/-- The decimal digit character for `n < 10`. -/
def digitChar (n : Nat) : Char := Char.ofNat (48 + n)

/-- Fuelled accumulation of the decimal digits of a natural number. -/
def natDigitsAux : Nat → Nat → List Char → List Char
  | 0, _, acc => acc
  | fuel + 1, n, acc =>
    if n < 10 then digitChar n :: acc
    else natDigitsAux fuel (n / 10) (digitChar (n % 10) :: acc)

/-- Decimal rendering of a natural number. -/
def natToString (n : Nat) : String := String.mk (natDigitsAux (n + 1) n [])

/-- Decimal rendering of an integer. -/
def intToString (i : Int) : String :=
  if i < 0 then "-" ++ natToString i.natAbs else natToString i.natAbs

mutual

/-- Compact JSON text of a wire value, as `serde_json::to_string` renders
it (no added whitespace, fields in order). -/
def renderValue : Value → String
  | Value.null => "null"
  | Value.bool true => "true"
  | Value.bool false => "false"
  | Value.num i => intToString i
  | Value.str s => "\"" ++ escapeString s ++ "\""
  | Value.arr xs => "[" ++ renderElems xs ++ "]"
  | Value.obj fields => "\x7b" ++ renderMembers fields ++ "\x7d"

/-- Comma-separated rendering of array elements. -/
def renderElems : List Value → String
  | [] => ""
  | [v] => renderValue v
  | v :: vs => renderValue v ++ "," ++ renderElems vs

/-- Comma-separated rendering of object members. -/
def renderMembers : List (String × Value) → String
  | [] => ""
  | [(k, v)] => "\"" ++ escapeString k ++ "\":" ++ renderValue v
  | (k, v) :: rest =>
    "\"" ++ escapeString k ++ "\":" ++ renderValue v ++ "," ++ renderMembers rest

end

/-- `to_string` from `helpers.rs` at a supported typed value: encode to
text, aborting (never returning an error) should the encoder fail. -/
def to_string_typed (t : Ty) (v : t.interp) : SerOutcome String :=
  expectValue "String serialization never fails."
    (match to_value t v with
     | Except.ok w => Except.ok (renderValue w)
     | Except.error e => Except.error e)

/-- Modelled from the spec: the wire value of request parameters. -/
def paramsToValue : Params → Value
  | Params.Array xs => Value.arr xs

/-- Modelled from the spec: the wire value of a request id. -/
def idToValue : Id → Value
  | Id.Num n => Value.num (Int.ofNat n)
  | Id.Str s => Value.str s

/-- Modelled from the spec: the wire value of the protocol version tag. -/
def versionToValue : Version → Value
  | Version.V2 => Value.str "2.0"

/-- Modelled from the spec: the bit-exact wire object of a method call —
`\x7b"jsonrpc":"2.0","method":<string>,"params":<array>,"id":<integer>\x7d`,
the version tag omitted when absent. -/
def methodCallToValue (mc : MethodCall) : Value :=
  Value.obj
    ((match mc.jsonrpc with
      | some v => [("jsonrpc", versionToValue v)]
      | none => []) ++
      [("method", Value.str mc.method),
       ("params", paramsToValue mc.params),
       ("id", idToValue mc.id)])

/-- Modelled from the spec: the wire value of a call — a single method
call object, or a top-level array for a batch. -/
def callToValue : Call → Value
  | Call.methodCall mc => methodCallToValue mc
  | Call.batch mcs => Value.arr (mcs.map methodCallToValue)

/-- `to_string` from `helpers.rs` applied to a `Call` (the use
`build_request`'s output is fed to): serialize the call object to compact
JSON text, aborting (never returning an error) should the encoder fail. -/
def to_string_call (c : Call) : SerOutcome String :=
  expectValue "String serialization never fails."
    (Except.ok (renderValue (callToValue c)))

/-- A concrete decoder used for witnesses: deserializing to the wire value
type itself, which always succeeds (as `serde_json::from_value` does at
`T = rpc::Value`). -/
def decodeAsValue : Value → Except String Value := fun v => Except.ok v

/-- C4: when the wrapped inner future completes with a transport-level
error, `CallFuture::poll` resolves to that same error — for every decode
function, so the decode step is never consulted and no decode event
occurs; when it completes with a raw wire value, the poll resolves to the
outcome of the decode step applied to that value. -/
theorem callFuturePoll_cases {α : Type} (from_value : Value → Except String α) :
    (∀ e : Error,
      callFuturePoll from_value (Poll.ready (Except.error e)) =
        Poll.ready (Except.error e)) ∧
    (∀ e : Error, decodeEvents (Poll.ready (Except.error e)) = []) ∧
    (∀ v : Value,
      callFuturePoll from_value (Poll.ready (Except.ok v)) =
        Poll.ready (decodeStep from_value v)) :=
  ⟨fun _ => rfl, fun _ => rfl, fun _ => rfl⟩

/-- C8: over a legal polling run (any number of pending inner polls, then
the inner future's completion, then anything), a `CallFuture` applies the
decode mapping exactly once, at the point of resolution: no decode event
occurs before resolution, exactly one occurs when resolving with a raw
value (none when resolving with a transport error), and nothing after the
resolution point is examined at all. -/
theorem callFuture_single_decode {α : Type} (from_value : Value → Except String α)
    (before : List (Poll (RpcResult Value)))
    (h : ∀ p ∈ before, p = Poll.pending) :
    (∀ (v : Value) (after : List (Poll (RpcResult Value))),
      runCallFuture from_value (before ++ Poll.ready (Except.ok v) :: after) =
        (some (decodeStep from_value v), [v])) ∧
    (∀ (e : Error) (after : List (Poll (RpcResult Value))),
      runCallFuture from_value (before ++ Poll.ready (Except.error e) :: after) =
        (some (Except.error e), [])) := by
  induction before with
  | nil => exact ⟨fun _ _ => rfl, fun _ _ => rfl⟩
  | cons p ps ih =>
    have hp : p = Poll.pending := h p (List.mem_cons_self p ps)
    have hps : ∀ q ∈ ps, q = Poll.pending := fun q hq => h q (List.mem_cons_of_mem p hq)
    obtain ⟨ih1, ih2⟩ := ih hps
    subst hp
    refine ⟨fun v after => ?_, fun e after => ?_⟩
    · simp [runCallFuture, callFuturePoll, decodeEvents, ih1 v after]
    · simp [runCallFuture, callFuturePoll, decodeEvents, ih2 e after]

/-- Witness for C8 at a concrete run: one pending inner poll, then
completion with the wire value `null`, decoded at the value type. -/
theorem callFuture_single_decode_witness :
    (∀ p ∈ [Poll.pending], p = Poll.pending (α := RpcResult Value)) ∧
    runCallFuture decodeAsValue
        ([Poll.pending] ++ Poll.ready (Except.ok Value.null) :: []) =
      (some (Except.ok Value.null), [Value.null]) := by
  refine ⟨by simp, ?_⟩
  exact (callFuture_single_decode decodeAsValue [Poll.pending] (by simp)).1 Value.null []

/-! ### Byte-slice parsing (`to_response_from_slice`, `to_notification_from_slice`) -/

/-- Whether a character is JSON whitespace. -/
def isJsonWs (c : Char) : Bool :=
  c = ' ' || c = Char.ofNat 10 || c = Char.ofNat 9 || c = Char.ofNat 13

/-- Drop leading JSON whitespace. -/
def skipWs : List Char → List Char
  | [] => []
  | c :: cs => if isJsonWs c then skipWs cs else c :: cs

/-- Resolve a one-character JSON escape sequence. -/
def unescape (c : Char) : Option Char :=
  if c = Char.ofNat 34 then some (Char.ofNat 34)
  else if c = Char.ofNat 92 then some (Char.ofNat 92)
  else if c = '/' then some '/'
  else if c = 'n' then some (Char.ofNat 10)
  else if c = 't' then some (Char.ofNat 9)
  else if c = 'r' then some (Char.ofNat 13)
  else none

/-- Read a JSON string body (the opening quote already consumed) up to the
closing quote, resolving escapes. -/
def parseStringBody : Nat → List Char → Except String (String × List Char)
  | 0, _ => Except.error "recursion limit exceeded"
  | _, [] => Except.error "EOF while parsing a string"
  | fuel + 1, c :: cs =>
    if c = Char.ofNat 34 then Except.ok ("", cs)
    else if c = Char.ofNat 92 then
      match cs with
      | [] => Except.error "EOF while parsing a string"
      | e :: cs2 =>
        match unescape e with
        | none => Except.error "invalid escape"
        | some d =>
          match parseStringBody fuel cs2 with
          | Except.error err => Except.error err
          | Except.ok (s, rest) => Except.ok (String.singleton d ++ s, rest)
    else
      match parseStringBody fuel cs with
      | Except.error err => Except.error err
      | Except.ok (s, rest) => Except.ok (String.singleton c ++ s, rest)

/-- Whether a character is a decimal digit. -/
def isDigit (c : Char) : Bool := 48 ≤ c.toNat && c.toNat ≤ 57

/-- Split off a maximal run of leading decimal digits. -/
def takeDigits : List Char → List Char × List Char
  | [] => ([], [])
  | c :: cs =>
    if isDigit c then
      ((takeDigits cs).1.cons c, (takeDigits cs).2)
    else ([], c :: cs)

/-- The natural number a digit run denotes. -/
def digitsToNat (ds : List Char) : Nat :=
  ds.foldl (fun acc c => acc * 10 + (c.toNat - 48)) 0

/-- Parse a JSON number.  The model supports integral numbers only and
rejects fractions and exponents (the claims under verification involve
only integral numbers). -/
def parseNumber (cs : List Char) : Except String (Value × List Char) :=
  match
    (match cs with
     | c :: rest => if c = '-' then (true, rest) else (false, cs)
     | [] => (false, cs)) with
  | (neg, cs1) =>
    match takeDigits cs1 with
    | ([], _) => Except.error "expected a number"
    | (ds, rest) =>
      match rest with
      | c :: _ =>
        if c = '.' || c = 'e' || c = 'E' then
          Except.error "unsupported number"
        else
          Except.ok
            (Value.num (if neg then -(digitsToNat ds : Int) else (digitsToNat ds : Int)), rest)
      | [] =>
        Except.ok
          (Value.num (if neg then -(digitsToNat ds : Int) else (digitsToNat ds : Int)), rest)

/-- Strip an expected literal character run, or fail with `none`. -/
def stripLit : List Char → List Char → Option (List Char)
  | [], cs => some cs
  | _ :: _, [] => none
  | l :: ls, c :: cs => if c = l then stripLit ls cs else none

mutual

/-- Fuelled recursive-descent JSON value parser (the model of the parsing
half of `serde_json::from_slice`). -/
def parseValue : Nat → List Char → Except String (Value × List Char)
  | 0, _ => Except.error "recursion limit exceeded"
  | fuel + 1, cs =>
    match skipWs cs with
    | [] => Except.error "EOF while parsing a value"
    | c :: rest =>
      if c = 'n' then
        match stripLit ['u', 'l', 'l'] rest with
        | some rest2 => Except.ok (Value.null, rest2)
        | none => Except.error "expected ident"
      else if c = 't' then
        match stripLit ['r', 'u', 'e'] rest with
        | some rest2 => Except.ok (Value.bool true, rest2)
        | none => Except.error "expected ident"
      else if c = 'f' then
        match stripLit ['a', 'l', 's', 'e'] rest with
        | some rest2 => Except.ok (Value.bool false, rest2)
        | none => Except.error "expected ident"
      else if c = Char.ofNat 34 then
        match parseStringBody (rest.length + 1) rest with
        | Except.error e => Except.error e
        | Except.ok (s, rest2) => Except.ok (Value.str s, rest2)
      else if c = '[' then
        match skipWs rest with
        | ']' :: rest2 => Except.ok (Value.arr [], rest2)
        | _ =>
          match parseElems fuel rest with
          | Except.error e => Except.error e
          | Except.ok (vs, rest2) => Except.ok (Value.arr vs, rest2)
      else if c = Char.ofNat 123 then
        match skipWs rest with
        | [] => Except.error "EOF while parsing an object"
        | cc :: rest2 =>
          if cc = Char.ofNat 125 then Except.ok (Value.obj [], rest2)
          else
            match parseMembers fuel rest with
            | Except.error e => Except.error e
            | Except.ok (ms, rest3) => Except.ok (Value.obj ms, rest3)
      else if c = '-' || isDigit c then parseNumber (c :: rest)
      else Except.error "expected value"

/-- Parse the elements of a non-empty JSON array, up to and including the
closing bracket. -/
def parseElems : Nat → List Char → Except String (List Value × List Char)
  | 0, _ => Except.error "recursion limit exceeded"
  | fuel + 1, cs =>
    match parseValue fuel cs with
    | Except.error e => Except.error e
    | Except.ok (v, rest) =>
      match skipWs rest with
      | ',' :: rest2 =>
        match parseElems fuel rest2 with
        | Except.error e => Except.error e
        | Except.ok (vs, rest3) => Except.ok (v :: vs, rest3)
      | ']' :: rest2 => Except.ok ([v], rest2)
      | _ => Except.error "expected comma or bracket"

/-- Parse the members of a non-empty JSON object, up to and including the
closing brace. -/
def parseMembers : Nat → List Char → Except String (List (String × Value) × List Char)
  | 0, _ => Except.error "recursion limit exceeded"
  | fuel + 1, cs =>
    match skipWs cs with
    | [] => Except.error "EOF while parsing an object"
    | c :: rest =>
      if c = Char.ofNat 34 then
        match parseStringBody (rest.length + 1) rest with
        | Except.error e => Except.error e
        | Except.ok (k, rest2) =>
          match skipWs rest2 with
          | ':' :: rest3 =>
            match parseValue fuel rest3 with
            | Except.error e => Except.error e
            | Except.ok (v, rest4) =>
              match skipWs rest4 with
              | [] => Except.error "EOF while parsing an object"
              | cc :: rest5 =>
                if cc = ',' then
                  match parseMembers fuel rest5 with
                  | Except.error e => Except.error e
                  | Except.ok (ms, rest6) => Except.ok ((k, v) :: ms, rest6)
                else if cc = Char.ofNat 125 then Except.ok ([(k, v)], rest5)
                else Except.error "expected comma or brace"
          | _ => Except.error "expected colon"
      else Except.error "key must be a string"

end

/-- The parsing half of `serde_json::from_slice`: parse the whole input as
one JSON value, rejecting trailing non-whitespace. -/
def json_from_slice (s : String) : Except String Value :=
  match parseValue (2 * s.length + 2) s.data with
  | Except.error e => Except.error e
  | Except.ok (v, rest) =>
    match skipWs rest with
    | [] => Except.ok v
    | _ => Except.error "trailing characters"

/-- First value bound to a key in a JSON object's member list. -/
def lookupField (key : String) : List (String × Value) → Option Value
  | [] => none
  | (k, v) :: rest => if k = key then some v else lookupField key rest

/-- Modelled from the spec: the deserialization shape of a request id — a
non-negative integer or a string. -/
def valueToId : Value → Except String Id
  | Value.num i => if 0 ≤ i then Except.ok (Id.Num i.toNat) else Except.error "invalid id"
  | Value.str s => Except.ok (Id.Str s)
  | _ => Except.error "invalid id"

/-- Modelled from the spec: the deserialization shape of the RPC error
value — \x7bcode: integer, message: string, data optional\x7d. -/
def valueToRpcError : Value → Except String RpcError
  | Value.obj fields =>
    (match lookupField "code" fields with
     | some (Value.num code) =>
       (match lookupField "message" fields with
        | some (Value.str msg) =>
          Except.ok { code := code, message := msg, data := lookupField "data" fields }
        | _ => Except.error "missing or invalid message")
     | _ => Except.error "missing or invalid code")
  | _ => Except.error "error must be an object"

/-- Modelled from the spec: the deserialization shape of an output — an
object carrying an id and either a `result` value (success) or an `error`
object (failure). -/
def valueToOutput : Value → Except String Output
  | Value.obj fields =>
    (match lookupField "id" fields with
     | none => Except.error "missing id"
     | some idv =>
       (match valueToId idv with
        | Except.error e => Except.error e
        | Except.ok id =>
          (match lookupField "result" fields with
           | some r => Except.ok (Output.Success { result := r, id := id })
           | none =>
             (match lookupField "error" fields with
              | some ev =>
                (match valueToRpcError ev with
                 | Except.error e => Except.error e
                 | Except.ok err => Except.ok (Output.Failure { error := err, id := id }))
              | none => Except.error "neither result nor error"))))
  | _ => Except.error "output must be an object"

/-- Element-wise deserialization of a batch of outputs. -/
def outputsFromValues : List Value → Except String (List Output)
  | [] => Except.ok []
  | v :: vs =>
    match valueToOutput v with
    | Except.error e => Except.error e
    | Except.ok o =>
      match outputsFromValues vs with
      | Except.error e => Except.error e
      | Except.ok os => Except.ok (o :: os)

/-- Modelled from the spec: the deserialization shape of a response — a
top-level array is a batch of outputs, anything else must be a single
output. -/
def valueToResponse : Value → Except String Response
  | Value.arr xs =>
    (match outputsFromValues xs with
     | Except.error e => Except.error e
     | Except.ok os => Except.ok (Response.Batch os))
  | v =>
    match valueToOutput v with
    | Except.error e => Except.error e
    | Except.ok o => Except.ok (Response.Single o)

/-- Modelled from the spec: the deserialization shape of the version tag. -/
def valueToVersion : Value → Except String Version
  | Value.str s => if s = "2.0" then Except.ok Version.V2 else Except.error "invalid version"
  | _ => Except.error "invalid version"

/-- Modelled from the spec: the deserialization shape of a notification —
an object with a method name and optional params, and no id expected. -/
def valueToNotification : Value → Except String Notification
  | Value.obj fields =>
    (match lookupField "method" fields with
     | some (Value.str m) =>
       (match
          (match lookupField "jsonrpc" fields with
           | none => Except.ok (none : Option Version)
           | some vv =>
             match valueToVersion vv with
             | Except.error e => Except.error e
             | Except.ok ver => Except.ok (some ver)) with
        | Except.error e => Except.error e
        | Except.ok ver =>
          (match lookupField "params" fields with
           | some (Value.arr xs) =>
             Except.ok { jsonrpc := ver, method := m, params := Params.Array xs }
           | none => Except.ok { jsonrpc := ver, method := m, params := Params.Array [] }
           | some _ => Except.error "invalid params"))
     | _ => Except.error "missing or invalid method")
  | _ => Except.error "notification must be an object"

/-- `to_response_from_slice` from `helpers.rs`: parse bytes into a
response, turning any parse or shape failure into `InvalidResponse` with
the failure's diagnostic description. -/
def to_response_from_slice (s : String) : RpcResult Response :=
  match json_from_slice s with
  | Except.error e => Except.error (Error.InvalidResponse e)
  | Except.ok v =>
    match valueToResponse v with
    | Except.error e => Except.error (Error.InvalidResponse e)
    | Except.ok r => Except.ok r

/-- `to_notification_from_slice` from `helpers.rs`: parse bytes into a
notification, turning any parse or shape failure into `InvalidResponse`
with the failure's diagnostic description. -/
def to_notification_from_slice (s : String) : RpcResult Notification :=
  match json_from_slice s with
  | Except.error e => Except.error (Error.InvalidResponse e)
  | Except.ok v =>
    match valueToNotification v with
    | Except.error e => Except.error (Error.InvalidResponse e)
    | Except.ok n => Except.ok n

/-- Helper: decoding an element-wise encoded list recovers the list,
whenever encode/decode round-trip pointwise. -/
theorem decodeList_map {α : Type} (f : Value → Except String α) (g : α → Value)
    (xs : List α) (h : ∀ x ∈ xs, f (g x) = Except.ok x) :
    decodeList f (xs.map g) = Except.ok xs := by
  induction xs with
  | nil => rfl
  | cons x xs ih =>
    have hx := h x (List.mem_cons_self x xs)
    have hxs := ih (fun y hy => h y (List.mem_cons_of_mem x hy))
    simp [decodeList, hx, hxs]

/-- C5: for every supported typed value `v`, decoding the wire value
produced by serializing `v` yields `v` again: `decode(serialize(v)) = v`. -/
theorem decode_serialize_roundtrip :
    ∀ (t : Ty) (v : t.interp), de t (ser t v) = Except.ok v := by
  intro t
  induction t with
  | bool => intro v; rfl
  | num => intro v; rfl
  | str => intro v; rfl
  | json => intro v; rfl
  | list t ih =>
    intro xs
    simp only [ser, de]
    exact decodeList_map (de t) (ser t) xs (fun x _ => ih x)

/-- C6: `serialize` and `to_string` never return an error value on the
supported type universe — they always produce the encoded value — and the
`expect` layer they are built on either passes a value through or aborts
with the panic message, so an encoder failure could never be propagated
as a returned error. -/
theorem serialize_never_errors :
    (∀ (t : Ty) (v : t.interp),
      serialize t v = SerOutcome.value (ser t v) ∧
      to_string_typed t v = SerOutcome.value (renderValue (ser t v))) ∧
    (∀ (msg : String) (r : Except String Value),
      (∃ a, expectValue msg r = SerOutcome.value a) ∨
        expectValue msg r = SerOutcome.aborted msg) := by
  refine ⟨fun t v => ⟨rfl, rfl⟩, fun msg r => ?_⟩
  cases r with
  | ok a => exact Or.inl ⟨a, rfl⟩
  | error _ => exact Or.inr rfl

/-- C9 counterexample: the serialized text of
`build_request(1, "eth_blockNumber", [])` is NOT the claimed string
`\x7b"jsonrpc":"2.0","id":1,"method":"eth_blockNumber","params":[]\x7d`
(the wire format puts `method` and `params` before `id`). -/
theorem build_request_to_string_counterexample :
    to_string_call (build_request 1 "eth_blockNumber" []) ≠
      SerOutcome.value
        "\x7b\"jsonrpc\":\"2.0\",\"id\":1,\"method\":\"eth_blockNumber\",\"params\":[]\x7d" := by
  decide

/-- C9 amended: `build_request(1, "eth_blockNumber", [])` serializes (via
`to_string`) to exactly
`\x7b"jsonrpc":"2.0","method":"eth_blockNumber","params":[],"id":1\x7d`. -/
theorem build_request_to_string :
    to_string_call (build_request 1 "eth_blockNumber" []) =
      SerOutcome.value
        "\x7b\"jsonrpc\":\"2.0\",\"method\":\"eth_blockNumber\",\"params\":[],\"id\":1\x7d" := by
  decide

/-- C7: for every input, `to_response_from_slice` and
`to_notification_from_slice` either succeed or fail with an
`InvalidResponse` error carrying a diagnostic description — being total
functions they never panic, and no other outcome (in particular no silent
empty response) is possible; concretely, parsing the bytes "not json" as
a response fails with `InvalidResponse`. -/
theorem parse_invalid_is_invalid_response :
    (∀ s : String,
      (∃ r, to_response_from_slice s = Except.ok r) ∨
        (∃ msg, to_response_from_slice s = Except.error (Error.InvalidResponse msg))) ∧
    (∀ s : String,
      (∃ n, to_notification_from_slice s = Except.ok n) ∨
        (∃ msg, to_notification_from_slice s = Except.error (Error.InvalidResponse msg))) ∧
    (∃ msg, to_response_from_slice "not json" = Except.error (Error.InvalidResponse msg)) := by
  refine ⟨?_, ?_, ⟨"expected ident", rfl⟩⟩
  · intro s
    cases h : json_from_slice s with
    | error e => exact Or.inr ⟨e, by simp [to_response_from_slice, h]⟩
    | ok v =>
      cases h2 : valueToResponse v with
      | error e => exact Or.inr ⟨e, by simp [to_response_from_slice, h, h2]⟩
      | ok r => exact Or.inl ⟨r, by simp [to_response_from_slice, h, h2]⟩
  · intro s
    cases h : json_from_slice s with
    | error e => exact Or.inr ⟨e, by simp [to_notification_from_slice, h]⟩
    | ok v =>
      cases h2 : valueToNotification v with
      | error e => exact Or.inr ⟨e, by simp [to_notification_from_slice, h, h2]⟩
      | ok n => exact Or.inl ⟨n, by simp [to_notification_from_slice, h, h2]⟩

end Web3
